import Mathlib

/-
Verification of the trip-segmentation and merge pipeline of
src/lambda/trips_lambda.py against its specification.

The pipeline is one SQL query (extract_query) plus an upsert
(insert_query), executed by extract_and_load_data and driven by
lambda_handler.  The embedding below follows the source:

* Timestamps are rationals (seconds); the SQL compares
  EXTRACT(EPOCH FROM (local_time - prev_time)) against 60 and 3600.
* Coordinates are rationals in the discrete pipeline.  The SQL's
  distance_km expression is real-valued trigonometry; it is embedded
  separately over ℝ (haversine_arg, haversine_km below), and the
  discrete pipeline takes the distance function as a parameter, since
  no structural claim depends on the numeric value of a distance.
* The query's window function LAG(...) OVER (PARTITION BY bike_id
  ORDER BY timestamp) is embedded per partition: the pipeline below
  processes the ping list of one vehicle (one bike_id, one
  provider_id), already in the ORDER BY timestamp order the window
  function imposes.
* The destination table all_trips is a list of rows; the surrogate
  trip_id and its sequence are outside the model (ON CONFLICT DO
  UPDATE never changes them).  The upsert ON CONFLICT (bike_id,
  trip_start) DO UPDATE SET ... is upsert_row.
* psycopg2 transaction semantics: work done through a cursor becomes
  visible only at conn.commit(); an exception raised before the
  commit leaves the committed state untouched.  Txn below carries the
  committed and the pending list; extract_and_load_data commits only
  on the success path, exactly as the python function calls
  dest_conn.commit() only after execute_values has succeeded.
-/

/-- One row of the source table bike_status restricted to one vehicle:
the timestamp (seconds, already converted to local time by the query)
and the coordinates.  bike_id and provider_id are constant inside one
partition and are not repeated in every row. -/
structure Ping where
  ts : ℚ
  lat : ℚ
  lon : ℚ
deriving DecidableEq, Repr

/-- The WHERE timestamp >= start AND timestamp < end filter of the
trip_data CTE. -/
def window_pings (s e : ℚ) (pings : List Ping) : List Ping :=
  pings.filter (fun p => decide (s ≤ p.ts) && decide (p.ts < e))

/-- LAG over the time-ordered partition: each row of trip_data that has
a predecessor, as the pair (previous ping, current ping).  Rows whose
LAG is NULL (the first of the partition) are the rows trip_segments
drops with WHERE prev_time IS NOT NULL; they produce no pair here. -/
def lagPairs {α : Type} : List α → List (α × α)
  | [] => []
  | [_] => []
  | p :: q :: rest => (p, q) :: lagPairs (q :: rest)

/-- The rest of the trip_segments WHERE clause:
EXTRACT(EPOCH FROM (local_time - prev_time)) BETWEEN 60 AND 3600
AND (prev_lat != lat OR prev_lon != lon).  pr.1 is the previous ping,
pr.2 the current one. -/
def in_trip (pr : Ping × Ping) : Bool :=
  decide (60 ≤ pr.2.ts - pr.1.ts) && decide (pr.2.ts - pr.1.ts ≤ 3600) &&
    (!decide (pr.1.lat = pr.2.lat) || !decide (pr.1.lon = pr.2.lon))

/-- duration_minutes of a pair: EXTRACT(EPOCH FROM ...) / 60.0. -/
def elapsed_minutes (p c : Ping) : ℚ :=
  (c.ts - p.ts) / 60

/-- One row of the trip_segments CTE. -/
structure Segment where
  start_time : ℚ
  end_time : ℚ
  start_lat : ℚ
  start_lon : ℚ
  end_lat : ℚ
  end_lon : ℚ
  duration_minutes : ℚ
  distance_km : ℚ
deriving DecidableEq, Repr

/-- The SELECT list of trip_segments applied to one surviving pair;
dist is the (real-valued in the source, abstracted here) distance
expression applied as dist start_lat start_lon end_lat end_lon. -/
def segment_of_pair (dist : ℚ → ℚ → ℚ → ℚ → ℚ) (pr : Ping × Ping) : Segment :=
  { start_time := pr.1.ts
    end_time := pr.2.ts
    start_lat := pr.1.lat
    start_lon := pr.1.lon
    end_lat := pr.2.lat
    end_lon := pr.2.lon
    duration_minutes := elapsed_minutes pr.1 pr.2
    distance_km := dist pr.1.lat pr.1.lon pr.2.lat pr.2.lon }

/-- The trip_segments CTE for one vehicle partition. -/
def trip_segments (dist : ℚ → ℚ → ℚ → ℚ → ℚ) (s e : ℚ) (pings : List Ping) :
    List Segment :=
  ((lagPairs (window_pings s e pings)).filter in_trip).map (segment_of_pair dist)

/-- One row of the trip_aggregates CTE (bike_id and provider_id, the
GROUP BY keys, are the partition's constants and are not repeated). -/
structure TripAgg where
  trip_start : ℚ
  trip_end : ℚ
  start_lat : ℚ
  start_lon : ℚ
  end_lat : ℚ
  end_lon : ℚ
  total_duration : ℚ
  total_distance : ℚ
  segment_count : ℕ
deriving DecidableEq, Repr

/-- The trip_aggregates CTE for one (bike_id, provider_id) group: SQL
GROUP BY produces no row for an empty group and exactly one row
otherwise, with MIN/MAX/SUM/COUNT over the group's segments. -/
def trip_aggregates (segs : List Segment) : Option TripAgg :=
  match segs with
  | [] => none
  | s :: ss =>
    some
      { trip_start := ss.foldl (fun a x => min a x.start_time) s.start_time
        trip_end := ss.foldl (fun a x => max a x.end_time) s.end_time
        start_lat := ss.foldl (fun a x => min a x.start_lat) s.start_lat
        start_lon := ss.foldl (fun a x => min a x.start_lon) s.start_lon
        end_lat := ss.foldl (fun a x => max a x.end_lat) s.end_lat
        end_lon := ss.foldl (fun a x => max a x.end_lon) s.end_lon
        total_duration :=
          ss.foldl (fun a x => a + x.duration_minutes) s.duration_minutes
        total_distance :=
          ss.foldl (fun a x => a + x.distance_km) s.distance_km
        segment_count := (s :: ss).length }

/-- The candidate rows the final SELECT reads, before its WHERE clause:
for one vehicle partition the group either exists (one row) or not. -/
def trip_candidates (dist : ℚ → ℚ → ℚ → ℚ → ℚ) (s e : ℚ)
    (pings : List Ping) : List TripAgg :=
  (trip_aggregates (trip_segments dist s e pings)).toList

/-- The final WHERE clause of extract_query:
total_duration >= 1 AND total_duration <= 60 AND total_distance > 0
AND segment_count >= 2. -/
def accept_trip (a : TripAgg) : Bool :=
  decide (1 ≤ a.total_duration) && decide (a.total_duration ≤ 60) &&
    decide (0 < a.total_distance) && decide (2 ≤ a.segment_count)

/-- The rows extract_query returns for one vehicle partition. -/
def extract_rows (dist : ℚ → ℚ → ℚ → ℚ → ℚ) (s e : ℚ)
    (pings : List Ping) : List TripAgg :=
  (trip_candidates dist s e pings).filter accept_trip

/-- Modelled from the spec: the Segmentation Engine's partition of the
per-vehicle ordered PingPair list into maximal runs of consecutive
in-trip pairs, each run one TripCandidate; this function counts those
runs.  The source query has no such notion (it is the point of
comparison for the claim about it); prev records whether the previous
pair was in-trip, so a run is counted at its first in-trip pair. -/
def run_count_from (prev : Bool) : List (Ping × Ping) → ℕ
  | [] => 0
  | x :: xs =>
    (if in_trip x && !prev then 1 else 0) + run_count_from (in_trip x) xs

/-- Modelled from the spec: the number of maximal runs of consecutive
in-trip pairs, i.e. of spec TripCandidates, in a pair list. -/
def run_count (l : List (Ping × Ping)) : ℕ :=
  run_count_from false l

/-- One row of the destination table all_trips, without the surrogate
trip_id (never written by the upsert's UPDATE branch) and without the
columns the insert leaves NULL. -/
structure TripRow where
  bike_id : String
  provider_id : String
  trip_start : ℚ
  trip_end : ℚ
  start_lat : ℚ
  start_lon : ℚ
  end_lat : ℚ
  end_lon : ℚ
  total_duration : ℚ
  total_distance : ℚ
  segment_count : ℕ
deriving DecidableEq, Repr

/-- The conflict target ON CONFLICT (bike_id, trip_start). -/
def key_match (r x : TripRow) : Bool :=
  decide (x.bike_id = r.bike_id) && decide (x.trip_start = r.trip_start)

/-- The DO UPDATE SET list: every column except the two key columns
(and the surrogate id) is overwritten from EXCLUDED. -/
def overwrite_with (r x : TripRow) : TripRow :=
  { x with
    provider_id := r.provider_id
    trip_end := r.trip_end
    start_lat := r.start_lat
    start_lon := r.start_lon
    end_lat := r.end_lat
    end_lon := r.end_lon
    total_duration := r.total_duration
    total_distance := r.total_distance
    segment_count := r.segment_count }

/-- INSERT ... VALUES (r) ON CONFLICT (bike_id, trip_start) DO UPDATE
SET ... applied to the table t: update every row whose key matches if
one exists, append the new row otherwise. -/
def upsert_row (t : List TripRow) (r : TripRow) : List TripRow :=
  if t.any (key_match r) then
    t.map (fun x => if key_match r x then overwrite_with r x else x)
  else
    t ++ [r]

/-- The non-key attributes of x equal those of r (what the claim calls
overwriting all other attributes). -/
def attrs_from (r x : TripRow) : Bool :=
  decide (x.provider_id = r.provider_id) && decide (x.trip_end = r.trip_end) &&
    decide (x.start_lat = r.start_lat) && decide (x.start_lon = r.start_lon) &&
    decide (x.end_lat = r.end_lat) && decide (x.end_lon = r.end_lon) &&
    decide (x.total_duration = r.total_duration) &&
    decide (x.total_distance = r.total_distance) &&
    decide (x.segment_count = r.segment_count)

/-- Number of rows of t whose key is r's key. -/
def count_key (t : List TripRow) (r : TripRow) : ℕ :=
  t.countP (key_match r)

/-- A database transaction on the destination table: what is committed
and the cursor's pending view.  Only txn_commit publishes pending
work; a connection closed after an exception discards it. -/
structure Txn where
  committed : List TripRow
  pending : List TripRow
deriving DecidableEq, Repr

/-- Opening a transaction on a connection whose committed state is d. -/
def txn_begin (d : List TripRow) : Txn :=
  { committed := d, pending := d }

/-- execute_values of the upsert for a batch of records, run inside the
transaction: the pending view accumulates the row upserts in order. -/
def txn_exec (t : Txn) (rs : List TripRow) : Txn :=
  { t with pending := rs.foldl upsert_row t.pending }

/-- dest_conn.commit(). -/
def txn_commit (t : Txn) : Txn :=
  { committed := t.pending, pending := t.pending }

/-- The rollback implicit in closing the connection without a commit. -/
def txn_abort (t : Txn) : Txn :=
  { committed := t.committed, pending := t.committed }

/-- How the write phase of one run ends: execute_values either succeeds
for the whole batch or raises after some number of rows have been
applied to the uncommitted cursor state. -/
inductive WriteOutcome where
  | ok : WriteOutcome
  | failAfter : ℕ → WriteOutcome
deriving DecidableEq, Repr

/-- extract_and_load_data: extract is the outcome of the source-side
query (the records, or the exception it raised), w how the write phase
goes, d the committed destination table.  Returns the python
function's outcome (Except.error e models raising e) and the committed
destination state afterwards.  The source returns early on an empty
record set; otherwise it runs execute_values and calls
dest_conn.commit() only after it, so an exception anywhere before
that commit leaves the committed state as it was. -/
def extract_and_load_data (extract : Except String (List TripRow))
    (w : WriteOutcome) (d : List TripRow) :
    Except String Unit × List TripRow :=
  match extract with
  | Except.error e => (Except.error e, d)
  | Except.ok records =>
    if records.isEmpty then
      (Except.ok (), d)
    else
      let t0 := txn_begin d
      match w with
      | WriteOutcome.ok =>
        let t1 := txn_commit (txn_exec t0 records)
        (Except.ok (), t1.committed)
      | WriteOutcome.failAfter k =>
        let t1 := txn_abort (txn_exec t0 (records.take k))
        (Except.error "execute_values failed", t1.committed)

/-- The dict lambda_handler returns. -/
structure LambdaResult where
  statusCode : ℕ
  body : String
deriving DecidableEq, Repr

/-- lambda_handler: runs extract_and_load_data and wraps its outcome;
every exception is caught and reported as statusCode 500 with the
exception's string, success as statusCode 200 with a fixed body. -/
def lambda_handler (extract : Except String (List TripRow))
    (w : WriteOutcome) (d : List TripRow) : LambdaResult × List TripRow :=
  match extract_and_load_data extract w d with
  | (Except.ok _, d2) =>
    ({ statusCode := 200, body := "Data warehouse update completed successfully" }, d2)
  | (Except.error e, d2) =>
    ({ statusCode := 500, body := "Error: " ++ e }, d2)

/-- radians(x): degrees to radians, as the SQL function. -/
noncomputable def radians (d : ℝ) : ℝ :=
  d * (Real.pi / 180)

/-- The argument of sqrt in the distance_km expression of
trip_segments: power(sin(radians(lat - prev_lat) / 2), 2) +
cos(radians(prev_lat)) * cos(radians(lat)) *
power(sin(radians(lon - prev_lon) / 2), 2), with (lat1, lon1) the
previous ping and (lat2, lon2) the current one. -/
noncomputable def haversine_arg (lat1 lon1 lat2 lon2 : ℝ) : ℝ :=
  Real.sin (radians (lat2 - lat1) / 2) ^ 2 +
    Real.cos (radians lat1) * Real.cos (radians lat2) *
      Real.sin (radians (lon2 - lon1) / 2) ^ 2

/-- distance_km: 6371 * 2 * asin(sqrt(...)). -/
noncomputable def haversine_km (lat1 lon1 lat2 lon2 : ℝ) : ℝ :=
  6371 * 2 * Real.arcsin (Real.sqrt (haversine_arg lat1 lon1 lat2 lon2))

/-- Modelled from the spec: the same distance with the arcsine argument
clamped to [-1, 1], as the specification describes the computation. -/
noncomputable def haversine_km_clamped (lat1 lon1 lat2 lon2 : ℝ) : ℝ :=
  6371 * 2 *
    Real.arcsin (min 1 (max (-1) (Real.sqrt (haversine_arg lat1 lon1 lat2 lon2))))

/-- A computable stand-in distance used to instantiate the pipeline's
distance parameter at concrete inputs: like the source's distance it
is zero exactly on identical coordinates and positive otherwise. -/
def demo_dist (lat1 lon1 lat2 lon2 : ℚ) : ℚ :=
  |lat2 - lat1| + |lon2 - lon1|

/-- One vehicle's window with two maximal in-trip runs separated by a
boundary pair: pings at 0s, 120s, 7320s and 7440s.  The pair
(120s, 7320s) spans 7200s > 3600s, a boundary; the other two pairs are
in-trip. -/
def cex1Pings : List Ping :=
  [{ ts := 0, lat := 0, lon := 0 }, { ts := 120, lat := 0, lon := 1 },
   { ts := 7320, lat := 0, lon := 2 }, { ts := 7440, lat := 0, lon := 3 }]

/-- One vehicle's window with a single in-trip run whose latitude
decreases: pings at 0s, 120s, 240s with latitudes 2, 1, 0. -/
def cex2Pings : List Ping :=
  [{ ts := 0, lat := 2, lon := 0 }, { ts := 120, lat := 1, lon := 0 },
   { ts := 240, lat := 0, lon := 0 }]

/-- A sorted two-ping window giving one segment, used to instantiate
theorems about the aggregator at a concrete input. -/
def witPings : List Ping :=
  [{ ts := 0, lat := 1, lon := 5 }, { ts := 120, lat := 2, lon := 5 }]

/-- The segment the two-ping window produces. -/
def witSegment : Segment :=
  { start_time := 0, end_time := 120, start_lat := 1, start_lon := 5,
    end_lat := 2, end_lon := 5, duration_minutes := 2, distance_km := 1 }

/-- The aggregate row of that single segment. -/
def witAgg : TripAgg :=
  { trip_start := 0, trip_end := 120, start_lat := 1, start_lon := 5,
    end_lat := 2, end_lon := 5, total_duration := 2, total_distance := 1,
    segment_count := 1 }

/-- A concrete validated trip row. -/
def row1 : TripRow :=
  { bike_id := "b1", provider_id := "p1", trip_start := 0, trip_end := 120,
    start_lat := 0, start_lon := 0, end_lat := 0, end_lon := 1,
    total_duration := 2, total_distance := 1, segment_count := 2 }

/-- The same key as row1 with different non-key attributes. -/
def row2 : TripRow :=
  { bike_id := "b1", provider_id := "p2", trip_start := 0, trip_end := 180,
    start_lat := 0, start_lon := 0, end_lat := 0, end_lon := 2,
    total_duration := 3, total_distance := 2, segment_count := 3 }

/-- C4: a PingPair is classified in-trip iff its elapsed_minutes lies in
the closed interval [1, 60] and the two coordinates differ; the epoch
test BETWEEN 60 AND 3600 is inclusive at both ends, so 60 minutes is
in-trip, 61 minutes is not, and coordinate-identical pairs never are. -/
theorem in_trip_characterization : ∀ p c : Ping,
    in_trip (p, c) = true ↔
      1 ≤ elapsed_minutes p c ∧ elapsed_minutes p c ≤ 60 ∧
        ¬(p.lat = c.lat ∧ p.lon = c.lon) := by
  intro p c
  have h60 : (0:ℚ) < 60 := by norm_num
  rw [in_trip, elapsed_minutes]
  simp only [Bool.and_eq_true, Bool.or_eq_true, Bool.not_eq_true',
    decide_eq_true_eq, decide_eq_false_iff_not]
  constructor
  · rintro ⟨⟨h1, h2⟩, h3⟩
    refine ⟨?_, ?_, ?_⟩
    · rw [le_div_iff₀ h60]; linarith
    · rw [div_le_iff₀ h60]; linarith
    · tauto
  · rintro ⟨h1, h2, h3⟩
    rw [le_div_iff₀ h60] at h1
    rw [div_le_iff₀ h60] at h2
    exact ⟨⟨by linarith, by linarith⟩, by tauto⟩

/-- C5: a candidate aggregate is returned by the extraction query iff
its totals satisfy 1 ≤ total_duration ≤ 60, total_distance > 0 and
segment_count ≥ 2; rejected candidates are merely filtered away, so
every extracted row satisfies the invariant. -/
theorem extract_rows_accept_iff : ∀ (dist : ℚ → ℚ → ℚ → ℚ → ℚ) (s e : ℚ)
    (pings : List Ping) (a : TripAgg),
    a ∈ extract_rows dist s e pings ↔
      a ∈ trip_candidates dist s e pings ∧
        1 ≤ a.total_duration ∧ a.total_duration ≤ 60 ∧
          0 < a.total_distance ∧ 2 ≤ a.segment_count := by
  intro dist s e pings a
  rw [extract_rows, List.mem_filter, accept_trip]
  simp only [Bool.and_eq_true, decide_eq_true_eq, and_assoc]

/-- C10: an empty extraction result makes extract_and_load_data return
before any insert statement runs, leaving the destination unchanged. -/
theorem empty_extract_leaves_dest : ∀ (w : WriteOutcome) (d : List TripRow),
    extract_and_load_data (Except.ok []) w d = (Except.ok (), d) := by
  intro w d
  rfl

/-- C6 counterexample: runs that write different numbers of trips (zero
and one) return identical results, so the handler's result carries
neither a trips-written count nor the processed window. -/
theorem lambda_result_constant_on_success :
    (lambda_handler (Except.ok [row1]) WriteOutcome.ok []).1 =
        (lambda_handler (Except.ok []) WriteOutcome.ok []).1 ∧
      (lambda_handler (Except.ok [row1]) WriteOutcome.ok []).2 ≠
        (lambda_handler (Except.ok []) WriteOutcome.ok []).2 := by
  constructor
  · rfl
  · intro h
    simp only [lambda_handler, extract_and_load_data, txn_begin, txn_exec,
      txn_commit, upsert_row, List.isEmpty, List.foldl, List.any_nil,
      Bool.false_eq_true, if_false, List.nil_append] at h
    cases h

/-- C6 amended: the handler's result is either statusCode 200 with the
fixed success body, or statusCode 500 with a body of the form
Error: followed by the cause; it contains no window, no trip count and
no stage name. -/
theorem lambda_result_shape : ∀ (e : Except String (List TripRow))
    (w : WriteOutcome) (d : List TripRow),
    (lambda_handler e w d).1 =
        { statusCode := 200,
          body := "Data warehouse update completed successfully" } ∨
      ∃ c, (lambda_handler e w d).1 = { statusCode := 500, body := "Error: " ++ c } := by
  intro e w d
  rcases hE : extract_and_load_data e w d with ⟨st, d2⟩
  cases st with
  | ok u => left; simp [lambda_handler, hE]
  | error msg => right; exact ⟨msg, by simp [lambda_handler, hE]⟩

/-- C9: per-run atomicity of the merge phase: either the run succeeds,
or the committed destination state is exactly what it was before the
run; the handler then reports statusCode 500, never partial success. -/
theorem failed_run_commits_nothing : ∀ (e : Except String (List TripRow))
    (w : WriteOutcome) (d : List TripRow),
    ((extract_and_load_data e w d).1 = Except.ok () ∨
        (extract_and_load_data e w d).2 = d) ∧
      ((lambda_handler e w d).1.statusCode = 200 ∨
        ((lambda_handler e w d).1.statusCode = 500 ∧
          (lambda_handler e w d).2 = d)) := by
  intro e w d
  cases e with
  | error msg =>
    constructor
    · right; rfl
    · right; constructor <;> rfl
  | ok records =>
    by_cases hEmp : records.isEmpty
    · constructor
      · left; simp [extract_and_load_data, hEmp]
      · left; simp [lambda_handler, extract_and_load_data, hEmp]
    · cases w with
      | ok =>
        constructor
        · left; simp [extract_and_load_data, hEmp]
        · left; simp [lambda_handler, extract_and_load_data, hEmp]
      | failAfter k =>
        constructor
        · right
          simp [extract_and_load_data, hEmp, txn_begin, txn_exec, txn_abort]
        · right
          constructor
          · simp [lambda_handler, extract_and_load_data, hEmp]
          · simp [lambda_handler, extract_and_load_data, hEmp, txn_begin,
              txn_exec, txn_abort]

/-- C1 counterexample: the window cex1Pings holds two maximal in-trip
runs separated by a boundary pair, yet the query's GROUP BY
bike_id, provider_id produces a single candidate row, not two. -/
theorem two_runs_one_candidate :
    run_count (lagPairs (window_pings 0 10000 cex1Pings)) = 2 ∧
      (trip_candidates demo_dist 0 10000 cex1Pings).length = 1 := by
  norm_num [run_count, run_count_from, trip_candidates, trip_segments,
    window_pings, lagPairs, in_trip, trip_aggregates, segment_of_pair,
    elapsed_minutes, demo_dist, cex1Pings, List.filter]

/-- C1 amended: the query aggregates all in-trip pairs of one vehicle
and provider in the window into at most one candidate; a boundary pair
is merely dropped and does not split runs, so there is exactly one
candidate as soon as any in-trip pair exists, however many maximal
runs the window holds. -/
theorem vehicle_window_single_candidate : ∀ (dist : ℚ → ℚ → ℚ → ℚ → ℚ)
    (s e : ℚ) (pings : List Ping),
    (trip_candidates dist s e pings).length ≤ 1 ∧
      ((trip_candidates dist s e pings).length = 1 ↔
        (lagPairs (window_pings s e pings)).any in_trip = true) := by
  intro dist s e pings
  rw [trip_candidates, trip_segments]
  rcases hF : (lagPairs (window_pings s e pings)).filter in_trip with _ | ⟨x, xs⟩
  · have hAnyF : (lagPairs (window_pings s e pings)).any in_trip = false := by
      rw [List.any_eq_false]
      intro y hy
      have hno := List.filter_eq_nil_iff.mp hF y hy
      simpa using hno
    simp [trip_aggregates, hAnyF]
  · have hx : x ∈ (lagPairs (window_pings s e pings)).filter in_trip := by
      rw [hF]; exact List.mem_cons_self x xs
    rcases List.mem_filter.mp hx with ⟨hmem, hin⟩
    have hAnyT : (lagPairs (window_pings s e pings)).any in_trip = true :=
      List.any_eq_true.mpr ⟨x, hmem, hin⟩
    simp [trip_aggregates, hAnyT]

/-- Overwriting does not touch the key columns. -/
theorem key_match_overwrite (r x : TripRow) :
    key_match r (overwrite_with r x) = key_match r x :=
  rfl

/-- A row always matches its own key. -/
theorem key_match_self (r : TripRow) : key_match r r = true := by
  simp [key_match]

/-- Overwriting from r makes the non-key attributes r's. -/
theorem attrs_from_overwrite (r x : TripRow) :
    attrs_from r (overwrite_with r x) = true := by
  simp [attrs_from, overwrite_with]

/-- Overwriting a row with itself changes nothing. -/
theorem overwrite_with_self (r : TripRow) : overwrite_with r r = r :=
  rfl

/-- Overwriting twice from the same row is overwriting once. -/
theorem overwrite_with_idem (r x : TripRow) :
    overwrite_with r (overwrite_with r x) = overwrite_with r x :=
  rfl

/-- C3: the ON CONFLICT upsert inserts when no row carries the key,
otherwise rewrites the non-key attributes of every key-matching row;
the number of rows with the key becomes one if it was zero and is
otherwise unchanged, and repeating the identical merge is the
identity on the stored table. -/
theorem upsert_row_semantics : ∀ (t : List TripRow) (r : TripRow),
    upsert_row (upsert_row t r) r = upsert_row t r ∧
      count_key (upsert_row t r) r =
        (if count_key t r = 0 then 1 else count_key t r) ∧
      (upsert_row t r).all (fun x => !key_match r x || attrs_from r x) = true ∧
      (count_key t r = 0 → upsert_row t r = t ++ [r]) := by
  intro t r
  by_cases hAny : t.any (key_match r) = true
  · rcases List.any_eq_true.mp hAny with ⟨y, hy, hky⟩
    have hpos : 0 < count_key t r := by
      rw [count_key]
      exact List.countP_pos_iff.mpr ⟨y, hy, hky⟩
    have hup : upsert_row t r =
        t.map (fun x => if key_match r x then overwrite_with r x else x) := by
      rw [upsert_row, if_pos hAny]
    have hkf : ∀ x, key_match r
        (if key_match r x then overwrite_with r x else x) = key_match r x := by
      intro x
      by_cases hk : key_match r x = true
      · rw [if_pos hk, key_match_overwrite]
      · rw [if_neg hk]
    have hAny2 : (t.map
        (fun x => if key_match r x then overwrite_with r x else x)).any
        (key_match r) = true := by
      rw [List.any_map]
      refine List.any_eq_true.mpr ⟨y, hy, ?_⟩
      simpa [Function.comp, hkf y] using hky
    refine ⟨?_, ?_, ?_, ?_⟩
    · rw [hup, upsert_row, if_pos hAny2, List.map_map]
      refine List.map_congr_left ?_
      intro x _
      by_cases hk : key_match r x = true
      · simp [Function.comp, hk, key_match_overwrite, overwrite_with_idem]
      · simp [Function.comp, hk]
    · rw [hup, count_key, List.countP_map, if_neg (Nat.pos_iff_ne_zero.mp hpos)]
      rw [count_key]
      refine List.countP_congr ?_
      intro x _
      simpa [Function.comp] using hkf x
    · rw [hup, List.all_map]
      refine List.all_eq_true.mpr ?_
      intro x _
      by_cases hk : key_match r x = true
      · simp [Function.comp, hk, key_match_overwrite, attrs_from_overwrite]
      · simp [Function.comp, hk]
    · intro h0
      rw [count_key] at h0
      have := List.countP_eq_zero.mp h0 y hy
      exact absurd hky this
  · have hAnyF : t.any (key_match r) = false := by
      revert hAny
      cases t.any (key_match r) <;> simp
    have hall : ∀ x ∈ t, key_match r x = false := by
      intro x hx
      have := List.any_eq_false.mp hAnyF x hx
      revert this
      cases key_match r x <;> simp
    have hup : upsert_row t r = t ++ [r] := by
      rw [upsert_row, if_neg hAny]
    have hAny2 : (t ++ [r]).any (key_match r) = true := by
      simp [List.any_append, key_match_self]
    refine ⟨?_, ?_, ?_, fun _ => hup⟩
    · rw [hup, upsert_row, if_pos hAny2, List.map_append]
      have h1 : t.map (fun x => if key_match r x then overwrite_with r x else x)
          = t := by
        refine (List.map_congr_left ?_).trans (List.map_id t)
        intro x hx
        rw [hall x hx]
        simp
      have h2 : [r].map (fun x => if key_match r x then overwrite_with r x else x)
          = [r] := by
        simp [key_match_self, overwrite_with_self]
      rw [h1, h2]
    · have hz : count_key t r = 0 := by
        rw [count_key]
        exact List.countP_eq_zero.mpr (by
          intro x hx
          simp [hall x hx])
      have hz2 : List.countP (key_match r) t = 0 := hz
      rw [hup, hz]
      simp [count_key, List.countP_append, List.countP_cons, key_match_self, hz2]
    · rw [hup, List.all_append]
      have h1 : t.all (fun x => !key_match r x || attrs_from r x) = true := by
        refine List.all_eq_true.mpr ?_
        intro x hx
        simp [hall x hx]
      have h2 : [r].all (fun x => !key_match r x || attrs_from r x) = true := by
        simp [attrs_from]
      rw [h1, h2]
      rfl

/-- A left fold with min stays at the seed when the seed is a lower
bound of the list. -/
theorem foldl_min_of_le {l : List ℚ} {q : ℚ} (h : ∀ x ∈ l, q ≤ x) :
    l.foldl min q = q := by
  induction l generalizing q with
  | nil => rfl
  | cons x xs ih =>
    rw [List.foldl_cons, min_eq_left (h x (List.mem_cons_self x xs))]
    exact ih (fun y hy => h y (List.mem_cons_of_mem x hy))

/-- A left fold with max over a sorted list ends at the last element. -/
theorem foldl_max_sorted {l : List ℚ} {q : ℚ}
    (h : (q :: l).Pairwise (fun a b => a ≤ b)) :
    l.foldl max q = (q :: l).getLast (List.cons_ne_nil q l) := by
  induction l generalizing q with
  | nil => rfl
  | cons x xs ih =>
    rw [List.foldl_cons]
    have hqx : q ≤ x := (List.pairwise_cons.mp h).1 x (List.mem_cons_self x xs)
    rw [max_eq_right hqx, ih (List.pairwise_cons.mp h).2]
    exact (List.getLast_cons (List.cons_ne_nil x xs)).symm

/-- A left fold with min lands on the seed or a list element. -/
theorem foldl_min_mem {l : List ℚ} : ∀ q : ℚ, l.foldl min q ∈ q :: l := by
  induction l with
  | nil => intro q; exact List.mem_singleton.mpr rfl
  | cons x xs ih =>
    intro q
    rw [List.foldl_cons]
    rcases List.mem_cons.mp (ih (min q x)) with h1 | h1
    · rw [h1]
      rcases min_choice q x with h | h <;> rw [h] <;> simp
    · exact List.mem_cons_of_mem q (List.mem_cons_of_mem x h1)

/-- A left fold with min bounds the seed and every list element. -/
theorem foldl_min_le {l : List ℚ} : ∀ q : ℚ, ∀ x ∈ q :: l, l.foldl min q ≤ x := by
  induction l with
  | nil =>
    intro q x hx
    rcases List.mem_singleton.mp hx with rfl
    exact le_refl x
  | cons y ys ih =>
    intro q x hx
    rw [List.foldl_cons]
    rcases List.mem_cons.mp hx with h1 | hx2
    · rw [h1]
      exact le_trans (ih (min q y) (min q y) (List.mem_cons_self _ _))
        (min_le_left q y)
    · rcases List.mem_cons.mp hx2 with h2 | hx3
      · rw [h2]
        exact le_trans (ih (min q y) (min q y) (List.mem_cons_self _ _))
          (min_le_right q y)
      · exact ih (min q y) x (List.mem_cons_of_mem _ hx3)

/-- A left fold with max lands on the seed or a list element. -/
theorem foldl_max_mem {l : List ℚ} : ∀ q : ℚ, l.foldl max q ∈ q :: l := by
  induction l with
  | nil => intro q; exact List.mem_singleton.mpr rfl
  | cons x xs ih =>
    intro q
    rw [List.foldl_cons]
    rcases List.mem_cons.mp (ih (max q x)) with h1 | h1
    · rw [h1]
      rcases max_choice q x with h | h <;> rw [h] <;> simp
    · exact List.mem_cons_of_mem q (List.mem_cons_of_mem x h1)

/-- A left fold with max dominates the seed and every list element. -/
theorem foldl_max_ge {l : List ℚ} : ∀ q : ℚ, ∀ x ∈ q :: l, x ≤ l.foldl max q := by
  induction l with
  | nil =>
    intro q x hx
    rcases List.mem_singleton.mp hx with rfl
    exact le_refl x
  | cons y ys ih =>
    intro q x hx
    rw [List.foldl_cons]
    rcases List.mem_cons.mp hx with h1 | hx2
    · rw [h1]
      exact le_trans (le_max_left q y)
        (ih (max q y) (max q y) (List.mem_cons_self _ _))
    · rcases List.mem_cons.mp hx2 with h2 | hx3
      · rw [h2]
        exact le_trans (le_max_right q y)
          (ih (max q y) (max q y) (List.mem_cons_self _ _))
      · exact ih (max q y) x (List.mem_cons_of_mem _ hx3)

/-- A left fold accumulating f sums the mapped list over the seed. -/
theorem foldl_add_eq_sum {β : Type} (f : β → ℚ) : ∀ (l : List β) (c : ℚ),
    l.foldl (fun a x => a + f x) c = c + (l.map f).sum := by
  intro l
  induction l with
  | nil => intro c; simp
  | cons x xs ih =>
    intro c
    rw [List.foldl_cons, ih, List.map_cons, List.sum_cons]
    ring

/-- The first component of a lag pair is a member of the list. -/
theorem lagPairs_fst_mem {α : Type} :
    ∀ {l : List α} {x : α × α}, x ∈ lagPairs l → x.1 ∈ l := by
  intro l
  induction l with
  | nil => intro x hx; cases hx
  | cons p t ih =>
    cases t with
    | nil => intro x hx; cases hx
    | cons q rest =>
      intro x hx
      rcases List.mem_cons.mp hx with h1 | h2
      · rw [h1]
        exact List.mem_cons_self p (q :: rest)
      · exact List.mem_cons_of_mem p (ih h2)

/-- The second component of a lag pair is a member of the tail. -/
theorem lagPairs_snd_mem_tail {α : Type} :
    ∀ {l : List α} {x : α × α}, x ∈ lagPairs l → x.2 ∈ l.tail := by
  intro l
  induction l with
  | nil => intro x hx; cases hx
  | cons p t ih =>
    cases t with
    | nil => intro x hx; cases hx
    | cons q rest =>
      intro x hx
      rcases List.mem_cons.mp hx with h1 | h2
      · rw [h1]
        exact List.mem_cons_self q rest
      · exact List.mem_cons_of_mem q (ih h2)

/-- Lag pairs of a pairwise-related list are pairwise related in both
components. -/
theorem lagPairs_pairwise {α : Type} {R : α → α → Prop} :
    ∀ {l : List α}, l.Pairwise R →
      (lagPairs l).Pairwise (fun x y => R x.1 y.1 ∧ R x.2 y.2) := by
  intro l
  induction l with
  | nil => intro _; exact List.Pairwise.nil
  | cons p t ih =>
    cases t with
    | nil => intro _; exact List.Pairwise.nil
    | cons q rest =>
      intro h
      rcases List.pairwise_cons.mp h with ⟨hp, ht⟩
      refine List.pairwise_cons.mpr ⟨?_, ih ht⟩
      intro y hy
      exact ⟨hp y.1 (lagPairs_fst_mem hy),
        (List.pairwise_cons.mp ht).1 y.2 (lagPairs_snd_mem_tail hy)⟩

/-- Segments computed from a time-sorted ping list are sorted in both
their start and their end times. -/
theorem trip_segments_sorted (dist : ℚ → ℚ → ℚ → ℚ → ℚ) (s e : ℚ)
    (pings : List Ping) (h : pings.Pairwise (fun p q => p.ts ≤ q.ts)) :
    (trip_segments dist s e pings).Pairwise
      (fun u v => u.start_time ≤ v.start_time ∧ u.end_time ≤ v.end_time) := by
  rw [trip_segments, List.pairwise_map]
  have h1 : (window_pings s e pings).Pairwise (fun p q => p.ts ≤ q.ts) :=
    List.Pairwise.sublist (List.filter_sublist pings) h
  have h2 := lagPairs_pairwise h1
  have h3 := List.Pairwise.sublist
    (@List.filter_sublist (Ping × Ping) in_trip (lagPairs (window_pings s e pings))) h2
  exact h3.imp (fun hab => hab)

/-- C2 counterexample: on a single in-trip run with decreasing
latitude, the aggregate's start_lat is MIN(start_lat) = 1 and its
end_lat is MAX(end_lat) = 1, while the first pair's earlier ping has
latitude 2 and the last pair's later ping has latitude 0. -/
theorem aggregate_coords_not_endpoints :
    (trip_candidates demo_dist 0 10000 cex2Pings).map
        (fun a => (a.start_lat, a.end_lat)) = [((1:ℚ), (1:ℚ))] ∧
      ((lagPairs (window_pings 0 10000 cex2Pings)).head?).map
          (fun x => x.1.lat) = some 2 ∧
      ((lagPairs (window_pings 0 10000 cex2Pings)).getLast?).map
          (fun x => x.2.lat) = some 0 := by
  norm_num [trip_candidates, trip_segments, window_pings, lagPairs, in_trip,
    trip_aggregates, segment_of_pair, elapsed_minutes, demo_dist, cex2Pings,
    List.filter, List.getLast?]

/-- C2 amended: for a non-empty run of segments computed from a
time-sorted ping window, the aggregate's trip_start is the first
pair's earlier timestamp and trip_end the last pair's later timestamp;
total_duration, total_distance and segment_count are the sum of
durations, the sum of distances and the number of pairs; but the
start coordinates are the componentwise minima of the pairs' start
coordinates and the end coordinates the componentwise maxima of the
pairs' end coordinates, not the first and last pair's positions. -/
theorem trip_aggregate_fields : ∀ (dist : ℚ → ℚ → ℚ → ℚ → ℚ) (s e : ℚ)
    (pings : List Ping) (s0 : Segment) (ss : List Segment) (a : TripAgg),
    pings.Pairwise (fun p q => p.ts ≤ q.ts) →
    trip_segments dist s e pings = s0 :: ss →
    trip_aggregates (s0 :: ss) = some a →
    a.trip_start = s0.start_time ∧
    a.trip_end =
      (((s0 :: ss).map (fun x => x.end_time)).getLast (List.cons_ne_nil _ _)) ∧
    (a.start_lat ∈ (s0 :: ss).map (fun x => x.start_lat) ∧
      ∀ y ∈ (s0 :: ss).map (fun x => x.start_lat), a.start_lat ≤ y) ∧
    (a.start_lon ∈ (s0 :: ss).map (fun x => x.start_lon) ∧
      ∀ y ∈ (s0 :: ss).map (fun x => x.start_lon), a.start_lon ≤ y) ∧
    (a.end_lat ∈ (s0 :: ss).map (fun x => x.end_lat) ∧
      ∀ y ∈ (s0 :: ss).map (fun x => x.end_lat), y ≤ a.end_lat) ∧
    (a.end_lon ∈ (s0 :: ss).map (fun x => x.end_lon) ∧
      ∀ y ∈ (s0 :: ss).map (fun x => x.end_lon), y ≤ a.end_lon) ∧
    a.total_duration = ((s0 :: ss).map (fun x => x.duration_minutes)).sum ∧
    a.total_distance = ((s0 :: ss).map (fun x => x.distance_km)).sum ∧
    a.segment_count = (s0 :: ss).length := by
  intro dist s e pings s0 ss a hsort hsegs hagg
  have hpw : (s0 :: ss).Pairwise
      (fun u v => u.start_time ≤ v.start_time ∧ u.end_time ≤ v.end_time) := by
    rw [← hsegs]
    exact trip_segments_sorted dist s e pings hsort
  simp only [trip_aggregates, Option.some.injEq] at hagg
  obtain rfl := hagg.symm
  refine ⟨?_, ?_, ⟨?_, ?_⟩, ⟨?_, ?_⟩, ⟨?_, ?_⟩, ⟨?_, ?_⟩, ?_, ?_, rfl⟩
  · show ss.foldl (fun a x => min a x.start_time) s0.start_time = s0.start_time
    rw [← List.foldl_map (fun x => x.start_time) min ss s0.start_time]
    refine foldl_min_of_le ?_
    intro y hy
    rcases List.mem_map.mp hy with ⟨u, hu, h2⟩
    rw [← h2]
    exact ((List.pairwise_cons.mp hpw).1 u hu).1
  · show ss.foldl (fun a x => max a x.end_time) s0.end_time =
      ((s0 :: ss).map (fun x => x.end_time)).getLast (List.cons_ne_nil _ _)
    rw [← List.foldl_map (fun x => x.end_time) max ss s0.end_time]
    refine foldl_max_sorted ?_
    have := (List.pairwise_map.mpr
      (hpw.imp (fun hab => hab.2)) :
        ((s0 :: ss).map (fun x => x.end_time)).Pairwise (fun a b => a ≤ b))
    simpa using this
  · show ss.foldl (fun a x => min a x.start_lat) s0.start_lat ∈
      (s0 :: ss).map (fun x => x.start_lat)
    rw [← List.foldl_map (fun x => x.start_lat) min ss s0.start_lat]
    exact foldl_min_mem s0.start_lat
  · intro y hy
    show ss.foldl (fun a x => min a x.start_lat) s0.start_lat ≤ y
    rw [← List.foldl_map (fun x => x.start_lat) min ss s0.start_lat]
    exact foldl_min_le s0.start_lat y hy
  · show ss.foldl (fun a x => min a x.start_lon) s0.start_lon ∈
      (s0 :: ss).map (fun x => x.start_lon)
    rw [← List.foldl_map (fun x => x.start_lon) min ss s0.start_lon]
    exact foldl_min_mem s0.start_lon
  · intro y hy
    show ss.foldl (fun a x => min a x.start_lon) s0.start_lon ≤ y
    rw [← List.foldl_map (fun x => x.start_lon) min ss s0.start_lon]
    exact foldl_min_le s0.start_lon y hy
  · show ss.foldl (fun a x => max a x.end_lat) s0.end_lat ∈
      (s0 :: ss).map (fun x => x.end_lat)
    rw [← List.foldl_map (fun x => x.end_lat) max ss s0.end_lat]
    exact foldl_max_mem s0.end_lat
  · intro y hy
    show y ≤ ss.foldl (fun a x => max a x.end_lat) s0.end_lat
    rw [← List.foldl_map (fun x => x.end_lat) max ss s0.end_lat]
    exact foldl_max_ge s0.end_lat y hy
  · show ss.foldl (fun a x => max a x.end_lon) s0.end_lon ∈
      (s0 :: ss).map (fun x => x.end_lon)
    rw [← List.foldl_map (fun x => x.end_lon) max ss s0.end_lon]
    exact foldl_max_mem s0.end_lon
  · intro y hy
    show y ≤ ss.foldl (fun a x => max a x.end_lon) s0.end_lon
    rw [← List.foldl_map (fun x => x.end_lon) max ss s0.end_lon]
    exact foldl_max_ge s0.end_lon y hy
  · show ss.foldl (fun a x => a + x.duration_minutes) s0.duration_minutes =
      ((s0 :: ss).map (fun x => x.duration_minutes)).sum
    rw [foldl_add_eq_sum, List.map_cons, List.sum_cons]
  · show ss.foldl (fun a x => a + x.distance_km) s0.distance_km =
      ((s0 :: ss).map (fun x => x.distance_km)).sum
    rw [foldl_add_eq_sum, List.map_cons, List.sum_cons]

/-- Witness: the aggregate of the concrete two-ping window starts at
the first pair's earlier timestamp, by the theorem above applied at
that input. -/
theorem trip_aggregate_fields_witness :
    witAgg.trip_start = witSegment.start_time :=
  (trip_aggregate_fields demo_dist 0 10000 witPings witSegment [] witAgg
    (by norm_num [witPings, List.pairwise_cons])
    (by norm_num [trip_segments, window_pings, lagPairs, in_trip,
      segment_of_pair, elapsed_minutes, demo_dist, witPings, witSegment,
      List.filter])
    (by norm_num [trip_aggregates, witSegment, witAgg])).1

/-- Half-angle identity used to bound the haversine expression. -/
theorem sin_sq_half_eq (x : ℝ) :
    Real.sin (x / 2) ^ 2 = (1 - Real.cos x) / 2 := by
  have h1 := Real.cos_two_mul' (x / 2)
  have h2 : 2 * (x / 2) = x := by ring
  rw [h2] at h1
  have h3 := Real.sin_sq_add_cos_sq (x / 2)
  linarith

/-- The sqrt argument of the distance expression lies in [0, 1] for
every real coordinate input. -/
theorem haversine_arg_mem_unit (lat1 lon1 lat2 lon2 : ℝ) :
    0 ≤ haversine_arg lat1 lon1 lat2 lon2 ∧
      haversine_arg lat1 lon1 lat2 lon2 ≤ 1 := by
  have hrad : radians (lat2 - lat1) = radians lat2 - radians lat1 := by
    simp only [radians]; ring
  simp only [haversine_arg, hrad]
  set a := radians lat1
  set b := radians lat2
  set v := radians (lon2 - lon1) / 2
  have h1 : Real.sin ((b - a) / 2) ^ 2 = (1 - Real.cos (b - a)) / 2 :=
    sin_sq_half_eq (b - a)
  have hsub : Real.cos (b - a) =
      Real.cos b * Real.cos a + Real.sin b * Real.sin a := Real.cos_sub b a
  have hadd : Real.cos (b + a) =
      Real.cos b * Real.cos a - Real.sin b * Real.sin a := Real.cos_add b a
  have hs2 : Real.sin v ^ 2 ≤ 1 := by
    nlinarith [Real.sin_sq_add_cos_sq v, sq_nonneg (Real.cos v)]
  have hs0 : 0 ≤ Real.sin v ^ 2 := sq_nonneg _
  have hc1 : Real.cos (b - a) ≤ 1 := Real.cos_le_one _
  have hc2 : -1 ≤ Real.cos (b - a) := Real.neg_one_le_cos _
  have hc3 : Real.cos (b + a) ≤ 1 := Real.cos_le_one _
  have hc4 : -1 ≤ Real.cos (b + a) := Real.neg_one_le_cos _
  rcases le_or_lt 0 (Real.cos a * Real.cos b) with hp | hp
  · constructor
    · have hm : 0 ≤ Real.cos a * Real.cos b * Real.sin v ^ 2 :=
        mul_nonneg hp hs0
      nlinarith [sq_nonneg (Real.sin ((b - a) / 2))]
    · have hm : Real.cos a * Real.cos b * Real.sin v ^ 2 ≤
          Real.cos a * Real.cos b := by
        nlinarith
      nlinarith
  · constructor
    · have hm : Real.cos a * Real.cos b ≤
          Real.cos a * Real.cos b * Real.sin v ^ 2 := by
        nlinarith
      nlinarith
    · have hm : Real.cos a * Real.cos b * Real.sin v ^ 2 ≤ 0 := by
        nlinarith
      nlinarith

/-- C7: for all real coordinate inputs the sqrt argument is nonnegative
and the arcsine argument lies in [-1, 1]; the domain-error branch is
unreachable, and clamping the arcsine argument to [-1, 1] as the
specification prescribes leaves the distance unchanged. -/
theorem haversine_asin_argument_safe : ∀ lat1 lon1 lat2 lon2 : ℝ,
    0 ≤ haversine_arg lat1 lon1 lat2 lon2 ∧
      -1 ≤ Real.sqrt (haversine_arg lat1 lon1 lat2 lon2) ∧
      Real.sqrt (haversine_arg lat1 lon1 lat2 lon2) ≤ 1 ∧
      haversine_km_clamped lat1 lon1 lat2 lon2 =
        haversine_km lat1 lon1 lat2 lon2 := by
  intro lat1 lon1 lat2 lon2
  obtain ⟨h0, h1⟩ := haversine_arg_mem_unit lat1 lon1 lat2 lon2
  have hs1 : Real.sqrt (haversine_arg lat1 lon1 lat2 lon2) ≤ 1 := by
    calc Real.sqrt (haversine_arg lat1 lon1 lat2 lon2) ≤ Real.sqrt 1 :=
        Real.sqrt_le_sqrt h1
      _ = 1 := Real.sqrt_one
  have hs0 : (-1:ℝ) ≤ Real.sqrt (haversine_arg lat1 lon1 lat2 lon2) :=
    le_trans (by norm_num) (Real.sqrt_nonneg _)
  refine ⟨h0, hs0, hs1, ?_⟩
  simp only [haversine_km_clamped, haversine_km]
  rw [max_eq_right hs0, min_eq_right hs1]

/-- C8: the distance expression is symmetric in its two coordinate
pairs and vanishes on identical coordinates. -/
theorem haversine_symm_and_zero : ∀ lat1 lon1 lat2 lon2 : ℝ,
    haversine_km lat1 lon1 lat2 lon2 = haversine_km lat2 lon2 lat1 lon1 ∧
      haversine_km lat1 lon1 lat1 lon1 = 0 := by
  intro lat1 lon1 lat2 lon2
  constructor
  · have harg : haversine_arg lat1 lon1 lat2 lon2 =
        haversine_arg lat2 lon2 lat1 lon1 := by
      simp only [haversine_arg]
      have h1 : radians (lat1 - lat2) = -(radians (lat2 - lat1)) := by
        simp only [radians]; ring
      have h2 : radians (lon1 - lon2) = -(radians (lon2 - lon1)) := by
        simp only [radians]; ring
      rw [h1, h2, neg_div, Real.sin_neg, neg_div, Real.sin_neg]
      ring
    simp only [haversine_km, harg]
  · have harg : haversine_arg lat1 lon1 lat1 lon1 = 0 := by
      simp [haversine_arg, radians]
    simp only [haversine_km, harg, Real.sqrt_zero, Real.arcsin_zero, mul_zero]
